import Mathlib

/-!
Verification of the cart / checkout / order / auth logic of a small
e-commerce storefront (shop/views.py, shop/models.py).

Shallow embedding conventions:
* `price` is a fixed-point decimal in the source (`DecimalField`, two places);
  it is embedded as an `Int` in the smallest currency unit.
* `stock` is embedded as `Int` so that the source expression
  `max(0, product.stock - qty)` is mirrored literally.
* The session cart `{product_id: qty}` is a Python dict; it is embedded as an
  association list with dict semantics: update-in-place for an existing key,
  append for a new key, so key order and uniqueness behave like a dict.
* The relational store (Product / Order / OrderItem tables) is a record of
  lists; `Order.objects.create` appends, `product.save()` writes back by id,
  and Django's autoincrement primary key is `nextOrderId`.
* `get_object_or_404(Product, pk=pid, is_active=True)` is `getProductActive`,
  returning `none` where the view raises Http404 (NotFound).
* There is no `transaction.atomic` in the source, so `checkout` is embedded as
  a step-by-step state transformer that returns the store as mutated so far
  when a lookup fails mid-loop (Django autocommits each create/save).
-/

namespace Shop

structure Product where
  id : Nat
  categoryId : Nat
  name : String
  slug : String
  description : String
  price : Int
  stock : Int
  is_active : Bool
deriving DecidableEq

structure ContactInfo where
  full_name : String
  email : String
  phone : String
  address : String
  city : String
  state : String
  pincode : String
deriving DecidableEq

structure Order where
  id : Nat
  userId : Option Nat
  contact : ContactInfo
  paid : Bool
deriving DecidableEq

structure OrderItem where
  orderId : Nat
  productId : Nat
  qty : Nat
  price : Int
deriving DecidableEq

structure Store where
  products : List Product
  orders : List Order
  orderItems : List OrderItem
  nextOrderId : Nat
deriving DecidableEq

/-- The session cart `{product_id: qty}`: an association list with dict
semantics (unique keys, insertion order). -/
abbrev Cart := List (Nat × Nat)

/-- `get_object_or_404(Product, pk=pid, is_active=True)`: first product with
the given primary key that is active; `none` models the Http404 raise. -/
def getProductActive (ps : List Product) (pid : Nat) : Option Product :=
  ps.find? (fun p => p.id == pid && p.is_active)

/-- `product.stock = v; product.save()`: write the stock field back to the
row with this primary key. -/
def updStock (ps : List Product) (pid : Nat) (v : Int) : List Product :=
  ps.map (fun p => if p.id = pid then { p with stock := v } else p)

/-- A later `Product.price` mutation (admin edit), saved by primary key;
used to check the OrderItem price-snapshot claim. -/
def updPrice (ps : List Product) (pid : Nat) (v : Int) : List Product :=
  ps.map (fun p => if p.id = pid then { p with price := v } else p)

def setProductPrice (s : Store) (pid : Nat) (v : Int) : Store :=
  { s with products := updPrice s.products pid v }

/-- Python dict read `cart.get(str(pid))`. -/
def cartGet (cart : Cart) (pid : Nat) : Option Nat :=
  (cart.find? (fun e => e.1 == pid)).map Prod.snd

/-- Python dict write `cart[str(pid)] = q`: update in place if the key
exists, append otherwise. -/
def cartSet (cart : Cart) (pid : Nat) (q : Nat) : Cart :=
  if cart.any (fun e => e.1 == pid) then
    cart.map (fun e => if e.1 = pid then (pid, q) else e)
  else
    cart ++ [(pid, q)]

/-- Python dict `cart.pop(str(pid), None)`. -/
def cartErase (cart : Cart) (pid : Nat) : Cart :=
  cart.filter (fun e => e.1 != pid)

/-- `cart_add(request, product_id)`: requires an existing active product
(404 otherwise), then `cart[str(pid)] = cart.get(str(pid), 0) + 1`. -/
def cart_add (ps : List Product) (cart : Cart) (pid : Nat) : Option Cart :=
  match getProductActive ps pid with
  | none => none
  | some _ => some (cartSet cart pid ((cartGet cart pid).getD 0 + 1))

/-- `cart_update(request, product_id)` (POST path): `qty = int(POST['qty'])`;
if `qty <= 0` pop the entry, else set it exactly. -/
def cart_update (cart : Cart) (pid : Nat) (qty : Int) : Cart :=
  if qty ≤ 0 then cartErase cart pid else cartSet cart pid qty.toNat

/-- `cart_remove(request, product_id)`. -/
def cart_remove (cart : Cart) (pid : Nat) : Cart :=
  cartErase cart pid

/-- `cart_view(request)`: resolve each entry with
`get_object_or_404(Product, pk=pid, is_active=True)` (the first stale entry
raises 404, reported as `.error pid`), building the item rows and the running
total `total += product.price * qty`. -/
def cart_view (ps : List Product) : Cart → Except Nat (List (Product × Nat × Int) × Int)
  | [] => .ok ([], 0)
  | (pid, qty) :: rest =>
    match getProductActive ps pid with
    | none => .error pid
    | some p =>
      match cart_view ps rest with
      | .error e => .error e
      | .ok (items, total) =>
          .ok ((p, qty, p.price * (qty : Int)) :: items, p.price * (qty : Int) + total)

inductive CheckoutResult where
  | emptyCart
  | notFound (pid : Nat)
  | success (orderId : Nat)
deriving DecidableEq

/-- Result of the order-items loop: either a 404 on a stale product, with the
store as mutated so far (no transaction in the source), or completion. -/
inductive LoopResult where
  | notFound (pid : Nat) (s : Store)
  | done (s : Store)

/-- The `for pid, qty in cart.items():` loop of `checkout`: re-resolve the
product (404 if missing/inactive), create an OrderItem with the current price,
then `product.stock = max(0, product.stock - qty); product.save()`. -/
def checkoutLoop (oid : Nat) : Store → Cart → LoopResult
  | s, [] => .done s
  | s, (pid, qty) :: rest =>
    match getProductActive s.products pid with
    | none => .notFound pid s
    | some p =>
      let s1 : Store := { s with orderItems := s.orderItems ++ [⟨oid, pid, qty, p.price⟩] }
      let s2 : Store := { s1 with products := updStock s1.products pid (max 0 (p.stock - (qty : Int))) }
      checkoutLoop oid s2 rest

/-- `checkout(request)` (POST path, authenticated user `uid`):
redirect away if the cart is empty; otherwise create the Order first
(with the posted contact fields, `paid=True`, no validation), run the item
loop, and clear the session cart only on full success. Returns the view
outcome, the store after all autocommitted writes, and the session cart. -/
def checkout (s : Store) (uid : Nat) (ci : ContactInfo) (cart : Cart) :
    CheckoutResult × Store × Cart :=
  if cart.isEmpty then (.emptyCart, s, cart)
  else
    let oid := s.nextOrderId
    let s1 : Store :=
      { s with orders := s.orders ++ [⟨oid, some uid, ci, true⟩], nextOrderId := oid + 1 }
    match checkoutLoop oid s1 cart with
    | .notFound pid s2 => (.notFound pid, s2, cart)
    | .done s2 => (.success oid, s2, [])

/-- `order_success(request, order_id)`:
`get_object_or_404(Order, pk=order_id, user=request.user)`. -/
def order_success (s : Store) (uid : Nat) (oid : Nat) : Option Order :=
  s.orders.find? (fun o => o.id == oid && o.userId == some uid)

/-! Auth gate: `login_view` and `register_view` over the Django `User` table.
Password hashing is opaque; the `password` field stands for the stored hash,
and `authenticate(username, password)` compares username and hash match. -/

structure UserCred where
  username : String
  email : String
  password : String
deriving DecidableEq

/-- `django.contrib.auth.authenticate(username=..., password=...)`: the user
whose username and password both match, if any. -/
def authenticate (users : List UserCred) (username password : String) : Option UserCred :=
  users.find? (fun u => u.username == username && u.password == password)

inductive LoginResult where
  | success (u : UserCred)
  | failure (msg : String)
deriving DecidableEq

/-- `if user: login(...)  else: error = "Invalid credentials"`. -/
def outcomeOf : Option UserCred → LoginResult
  | some u => .success u
  | none => .failure "Invalid credentials"

/-- `login_view` (POST path): authenticate the identifier as a username; on
failure look the identifier up as an email (`User.objects.get(email=...)`)
and re-authenticate with the resolved username; any remaining failure yields
the single generic error message. -/
def login_view (users : List UserCred) (ident password : String) : LoginResult :=
  match authenticate users ident password with
  | some u => .success u
  | none =>
    match users.find? (fun u => u.email == ident) with
    | some u => outcomeOf (authenticate users u.username password)
    | none => .failure "Invalid credentials"

inductive RegisterResult where
  | passwordMismatch
  | usernameTaken
  | emailTaken
  | ok
deriving DecidableEq

/-- Python `str.strip()`: drop leading and trailing whitespace. -/
def pyStrip (s : String) : String :=
  ⟨((s.data.dropWhile Char.isWhitespace).reverse.dropWhile Char.isWhitespace).reverse⟩

/-- Python `str.lower()`: lowercase each character. -/
def pyLower (s : String) : String :=
  ⟨s.data.map Char.toLower⟩

/-- `register_view` (POST path): `username.strip()`, `email.strip().lower()`,
then the three checks in source order (password mismatch, username exists,
email exists), else `User.objects.create_user(...)`. -/
def register_view (users : List UserCred) (username email password confirm : String) :
    RegisterResult × List UserCred :=
  let uname := pyStrip username
  let em := pyLower (pyStrip email)
  if password ≠ confirm then (.passwordMismatch, users)
  else if users.any (fun u => u.username == uname) then (.usernameTaken, users)
  else if users.any (fun u => u.email == em) then (.emailTaken, users)
  else (.ok, users ++ [⟨uname, em, password⟩])

/- Concrete fixtures used by witnesses and counterexamples. -/

def ciEx : ContactInfo := ⟨"Ada B", "a@b.c", "1", "addr", "city", "st", "0"⟩

def emptyCI : ContactInfo := ⟨"", "", "", "", "", "", ""⟩

/-- Product B of the spec scenario: stock 1, deactivated before checkout. -/
def productB : Product := ⟨1, 1, "B", "b", "", 10, 1, false⟩

def storeB : Store := ⟨[productB], [], [], 0⟩

/-- Product A of the spec scenario: price 10.00, stock 5, active. -/
def productA : Product := ⟨2, 1, "A", "a", "", 1000, 5, true⟩

def storeA : Store := ⟨[productA], [], [], 0⟩

def alice : UserCred := ⟨"alice", "a@x.com", "h1"⟩

/-- An order belonging to user 2, for the ownership check. -/
def order7 : Order := ⟨7, some 2, ciEx, true⟩

def store7 : Store := ⟨[], [order7], [], 8⟩

/-- C3: checkout on the empty cart fails with EmptyCart and performs no
writes: the store is returned unchanged and the cart stays empty. -/
theorem checkout_empty_cart (s : Store) (uid : Nat) (ci : ContactInfo) :
    checkout s uid ci [] = (.emptyCart, s, []) := rfl

/-- C1 counterexample: the cart references deactivated product B; checkout
does fail with NotFound for B, but an Order IS persisted (the source creates
the Order before the item loop and uses no transaction), refuting
"no Order is persisted: the store state is unchanged on error". -/
theorem checkout_stale_order_persisted :
    productB.is_active = false ∧
    (checkout storeB 1 ciEx [(1, 1)]).1 = .notFound 1 ∧
    storeB.orders.length = 0 ∧
    (checkout storeB 1 ciEx [(1, 1)]).2.1.orders.length = 1 := by
  refine ⟨rfl, rfl, rfl, rfl⟩

/-- C2 counterexample: all contact fields empty, cart holds active product A;
checkout succeeds and persists the Order with the empty fields, refuting
"fails with a ValidationError ... and creates no Order". -/
theorem checkout_empty_contact_accepted :
    (checkout storeA 1 emptyCI [(2, 2)]).1 = .success 0 ∧
    (checkout storeA 1 emptyCI [(2, 2)]).2.1.orders = [⟨0, some 1, emptyCI, true⟩] := by
  refine ⟨rfl, rfl⟩

/-! Frame lemmas: writing back a field that is neither the primary key nor
the activity flag commutes with the active-product lookup. -/

theorem getProductActive_map (f : Product → Product)
    (hid : ∀ p, (f p).id = p.id) (hact : ∀ p, (f p).is_active = p.is_active)
    (ps : List Product) (pid : Nat) :
    getProductActive (ps.map f) pid = (getProductActive ps pid).map f := by
  induction ps with
  | nil => rfl
  | cons p ps ih =>
    have hpred : ((f p).id == pid && (f p).is_active) = (p.id == pid && p.is_active) := by
      rw [hid, hact]
    unfold getProductActive at ih ⊢
    simp only [List.map_cons, List.find?_cons, hpred]
    cases h : (p.id == pid && p.is_active) <;> simp [ih]

theorem getProductActive_some (ps : List Product) (pid : Nat) (p : Product)
    (h : getProductActive ps pid = some p) :
    p ∈ ps ∧ p.id = pid ∧ p.is_active = true := by
  have hm := List.mem_of_find?_eq_some h
  have hp := List.find?_some h
  simp only [Bool.and_eq_true, beq_iff_eq] at hp
  exact ⟨hm, hp.1, hp.2⟩

theorem getProductActive_updStock (ps : List Product) (q : Nat) (v : Int) (pid : Nat) :
    getProductActive (updStock ps q v) pid
      = (getProductActive ps pid).map
          (fun p => if p.id = q then { p with stock := v } else p) :=
  getProductActive_map _
    (fun p => by by_cases h : p.id = q <;> simp [h])
    (fun p => by by_cases h : p.id = q <;> simp [h]) ps pid

theorem getProductActive_updStock_ne (ps : List Product) (q : Nat) (v : Int) (pid : Nat)
    (hne : pid ≠ q) :
    getProductActive (updStock ps q v) pid = getProductActive ps pid := by
  rw [getProductActive_updStock]
  cases hfind : getProductActive ps pid with
  | none => rfl
  | some p =>
    have hid := (getProductActive_some ps pid p hfind).2.1
    rw [Option.map_some', if_neg (by rw [hid]; exact hne)]

theorem getProductActive_updStock_self (ps : List Product) (q : Nat) (v : Int) (p : Product)
    (h : getProductActive ps q = some p) :
    getProductActive (updStock ps q v) q = some { p with stock := v } := by
  rw [getProductActive_updStock, h, Option.map_some',
    if_pos (getProductActive_some ps q p h).2.1]

theorem getProductActive_updStock_price (ps : List Product) (q : Nat) (v : Int) (pid : Nat) :
    (getProductActive (updStock ps q v) pid).map Product.price
      = (getProductActive ps pid).map Product.price := by
  rw [getProductActive_updStock]
  cases getProductActive ps pid with
  | none => rfl
  | some p => by_cases h : p.id = q <;> simp [h]

theorem getProductActive_updStock_isSome (ps : List Product) (q : Nat) (v : Int) (pid : Nat) :
    (getProductActive (updStock ps q v) pid).isSome = (getProductActive ps pid).isSome := by
  rw [getProductActive_updStock]
  cases getProductActive ps pid <;> rfl

theorem getProductActive_updStock_eq_none (ps : List Product) (q : Nat) (v : Int) (pid : Nat) :
    getProductActive (updStock ps q v) pid = none ↔ getProductActive ps pid = none := by
  rw [getProductActive_updStock]
  cases getProductActive ps pid <;> simp

/-! Invariants of the order-items loop. -/

theorem checkoutLoop_done_spec (oid : Nat) (cart : Cart) :
    ∀ (s s2 : Store), checkoutLoop oid s cart = .done s2 →
      s2.orders = s.orders ∧ s2.nextOrderId = s.nextOrderId ∧
      ∃ newItems, s2.orderItems = s.orderItems ++ newItems ∧
        ∀ it ∈ newItems, it.orderId = oid ∧
          ∃ p, getProductActive s.products it.productId = some p ∧ it.price = p.price := by
  induction cart with
  | nil =>
    intro s s2 h
    cases h
    exact ⟨rfl, rfl, [], by simp, by simp⟩
  | cons e rest ih =>
    intro s s2 h
    obtain ⟨pid, qty⟩ := e
    simp only [checkoutLoop] at h
    cases hfind : getProductActive s.products pid with
    | none => rw [hfind] at h; cases h
    | some p =>
      rw [hfind] at h
      obtain ⟨ho, hn, newI, hitems, hspec⟩ := ih _ _ h
      refine ⟨ho, hn, ⟨oid, pid, qty, p.price⟩ :: newI, ?_, ?_⟩
      · rw [hitems]; simp
      · intro it hit
        rcases List.mem_cons.mp hit with hhd | htl
        · subst hhd
          exact ⟨rfl, p, hfind, rfl⟩
        · obtain ⟨hoid, p1, hp1, hprice⟩ := hspec it htl
          have hmap := getProductActive_updStock_price s.products pid
            (max 0 (p.stock - (qty : Int))) it.productId
          rw [hp1, Option.map_some'] at hmap
          cases hbase : getProductActive s.products it.productId with
          | none => rw [hbase] at hmap; cases hmap
          | some p2 =>
            rw [hbase, Option.map_some'] at hmap
            exact ⟨hoid, p2, rfl, by rw [hprice, Option.some_inj.mp hmap]⟩

theorem checkoutLoop_notFound_spec (oid : Nat) (cart : Cart) :
    ∀ (s s2 : Store) (pid : Nat), checkoutLoop oid s cart = .notFound pid s2 →
      s2.orders = s.orders ∧ getProductActive s.products pid = none := by
  induction cart with
  | nil => intro s s2 pid h; cases h
  | cons e rest ih =>
    intro s s2 pid h
    obtain ⟨pid1, qty⟩ := e
    simp only [checkoutLoop] at h
    cases hfind : getProductActive s.products pid1 with
    | none =>
      rw [hfind] at h
      cases h
      exact ⟨rfl, hfind⟩
    | some p =>
      rw [hfind] at h
      obtain ⟨ho, hnone⟩ := ih _ _ _ h
      exact ⟨ho, (getProductActive_updStock_eq_none s.products pid1
        (max 0 (p.stock - (qty : Int))) pid).mp hnone⟩

theorem checkoutLoop_done_of_resolvable (oid : Nat) (cart : Cart) :
    ∀ (s : Store), (∀ e ∈ cart, (getProductActive s.products e.1).isSome) →
      ∃ s2, checkoutLoop oid s cart = .done s2 := by
  induction cart with
  | nil => intro s _; exact ⟨s, rfl⟩
  | cons e rest ih =>
    intro s h
    obtain ⟨pid, qty⟩ := e
    have hhd := h (pid, qty) (List.mem_cons_self _ _)
    obtain ⟨p, hp⟩ := Option.isSome_iff_exists.mp hhd
    have hrest : ∀ e ∈ rest,
        (getProductActive (updStock s.products pid
          (max 0 (p.stock - (qty : Int)))) e.1).isSome := by
      intro e he
      rw [getProductActive_updStock_isSome]
      exact h e (List.mem_cons_of_mem _ he)
    obtain ⟨s2, hs2⟩ := ih
      { s with orderItems := s.orderItems ++ [⟨oid, pid, qty, p.price⟩],
               products := updStock s.products pid (max 0 (p.stock - (qty : Int))) }
      hrest
    refine ⟨s2, ?_⟩
    simp only [checkoutLoop, hp]
    exact hs2

theorem checkoutLoop_notFound_of_stale (oid : Nat) (cart : Cart) :
    ∀ (s : Store), (∃ e ∈ cart, getProductActive s.products e.1 = none) →
      ∃ pid s2, checkoutLoop oid s cart = .notFound pid s2 := by
  induction cart with
  | nil => intro s h; obtain ⟨e, he, -⟩ := h; exact absurd he (List.not_mem_nil e)
  | cons hd rest ih =>
    intro s h
    obtain ⟨pid1, qty⟩ := hd
    cases hfind : getProductActive s.products pid1 with
    | none =>
      refine ⟨pid1, s, ?_⟩
      simp only [checkoutLoop, hfind]
    | some p =>
      obtain ⟨e, he, hnone⟩ := h
      rcases List.mem_cons.mp he with hhd | htl
      · rw [hhd] at hnone
        rw [hnone] at hfind
        cases hfind
      · have hstale : ∃ e ∈ rest,
            getProductActive (updStock s.products pid1
              (max 0 (p.stock - (qty : Int)))) e.1 = none :=
          ⟨e, htl, (getProductActive_updStock_eq_none _ _ _ _).mpr hnone⟩
        obtain ⟨pid2, s2, hs2⟩ := ih
          { s with orderItems := s.orderItems ++ [⟨oid, pid1, qty, p.price⟩],
                   products := updStock s.products pid1 (max 0 (p.stock - (qty : Int))) }
          hstale
        refine ⟨pid2, s2, ?_⟩
        simp only [checkoutLoop, hfind]
        exact hs2

theorem checkoutLoop_stock_spec (oid : Nat) (cart : Cart) :
    ∀ (s s2 : Store), (cart.map Prod.fst).Nodup →
      checkoutLoop oid s cart = .done s2 →
      (∀ pid, (∀ e ∈ cart, e.1 ≠ pid) →
         getProductActive s2.products pid = getProductActive s.products pid)
      ∧ ∀ e ∈ cart, ∀ p, getProductActive s.products e.1 = some p →
          getProductActive s2.products e.1
            = some { p with stock := max 0 (p.stock - (e.2 : Int)) } := by
  induction cart with
  | nil =>
    intro s s2 _ h
    cases h
    exact ⟨fun _ _ => rfl, fun e he => absurd he (List.not_mem_nil e)⟩
  | cons hd rest ih =>
    intro s s2 hnd h
    obtain ⟨pid, qty⟩ := hd
    simp only [List.map_cons, List.nodup_cons] at hnd
    obtain ⟨hpidnot, hndrest⟩ := hnd
    simp only [checkoutLoop] at h
    cases hfind : getProductActive s.products pid with
    | none => rw [hfind] at h; cases h
    | some p =>
      rw [hfind] at h
      obtain ⟨ihframe, ihmain⟩ := ih _ _ hndrest h
      have hrestne : ∀ e ∈ rest, e.1 ≠ pid := by
        intro e he hh
        exact hpidnot (hh ▸ List.mem_map_of_mem Prod.fst he)
      constructor
      · intro pid0 hall
        have hne0 : pid ≠ pid0 := hall (pid, qty) (List.mem_cons_self _ _)
        exact (ihframe pid0 (fun e he => hall e (List.mem_cons_of_mem _ he))).trans
          (getProductActive_updStock_ne _ _ _ _ (Ne.symm hne0))
      · intro e he p0 hp0
        obtain ⟨e1, e2⟩ := e
        rcases List.mem_cons.mp he with hhd | htl
        · injection hhd with h1 h2
          subst h1
          subst h2
          have hp1 : getProductActive s.products e1 = some p0 := hp0
          rw [hfind] at hp1
          have hpe : p = p0 := Option.some_inj.mp hp1
          show getProductActive s2.products e1
            = some { p0 with stock := max 0 (p0.stock - (e2 : Int)) }
          rw [← hpe]
          exact (ihframe e1 hrestne).trans
            (getProductActive_updStock_self s.products e1
              (max 0 (p.stock - (e2 : Int))) p hfind)
        · have hne : e1 ≠ pid := by
            intro hh
            apply hpidnot
            rw [← hh]
            exact List.mem_map_of_mem Prod.fst htl
          have hp1 : getProductActive s.products e1 = some p0 := hp0
          have hstep : getProductActive (updStock s.products pid
              (max 0 (p.stock - (qty : Int)))) e1 = some p0 :=
            (getProductActive_updStock_ne _ _ _ _ hne).trans hp1
          exact ihmain (e1, e2) htl p0 hstep

/-- Unfolding of `checkout` on a non-empty cart: the Order row is inserted
first, then the item loop runs on the store that already contains it. -/
theorem checkout_cons (s : Store) (uid : Nat) (ci : ContactInfo) (hd : Nat × Nat)
    (rest : Cart) :
    checkout s uid ci (hd :: rest)
      = match checkoutLoop s.nextOrderId
          { s with orders := s.orders ++ [⟨s.nextOrderId, some uid, ci, true⟩],
                   nextOrderId := s.nextOrderId + 1 } (hd :: rest) with
        | .notFound pid s2 => (.notFound pid, s2, hd :: rest)
        | .done s2 => (.success s.nextOrderId, s2, []) := rfl

/-- C1 (amended): when some cart entry no longer resolves to an active
product, checkout does fail with NotFound for a stale product and the session
cart is kept, but the Order created before the item loop remains persisted
(there is no transaction, so the store is NOT unchanged on error). -/
theorem checkout_stale_partial_write (s : Store) (uid : Nat) (ci : ContactInfo)
    (cart : Cart)
    (hstale : ∃ e ∈ cart, getProductActive s.products e.1 = none) :
    (∃ pid, (checkout s uid ci cart).1 = .notFound pid ∧
       getProductActive s.products pid = none)
    ∧ (checkout s uid ci cart).2.1.orders
        = s.orders ++ [⟨s.nextOrderId, some uid, ci, true⟩]
    ∧ (checkout s uid ci cart).2.2 = cart := by
  obtain ⟨e0, he0, hnone0⟩ := hstale
  cases cart with
  | nil => exact absurd he0 (List.not_mem_nil e0)
  | cons hd rest =>
    obtain ⟨pid, s2, hloop⟩ := checkoutLoop_notFound_of_stale s.nextOrderId (hd :: rest)
      { s with orders := s.orders ++ [⟨s.nextOrderId, some uid, ci, true⟩],
               nextOrderId := s.nextOrderId + 1 }
      ⟨e0, he0, hnone0⟩
    obtain ⟨ho, hnone⟩ := checkoutLoop_notFound_spec s.nextOrderId (hd :: rest) _ _ _ hloop
    rw [checkout_cons, hloop]
    exact ⟨⟨pid, rfl, hnone⟩, ho, rfl⟩

/-- C1 witness: the spec's scenario (product B stale in the cart). -/
theorem checkout_stale_partial_write_witness :
    (∃ pid, (checkout storeB 1 ciEx [(1, 1)]).1 = .notFound pid ∧
       getProductActive storeB.products pid = none)
    ∧ (checkout storeB 1 ciEx [(1, 1)]).2.1.orders
        = storeB.orders ++ [⟨storeB.nextOrderId, some 1, ciEx, true⟩]
    ∧ (checkout storeB 1 ciEx [(1, 1)]).2.2 = [(1, 1)] :=
  checkout_stale_partial_write storeB 1 ciEx [(1, 1)]
    ⟨(1, 1), by decide, by decide⟩

/-- C2 (amended): checkout performs no contactInfo validation. For any
contact fields, including all-empty ones, a checkout with a non-empty cart
whose entries all resolve to active products succeeds and persists the Order
carrying those fields verbatim; no ValidationError path exists. -/
theorem checkout_no_contact_validation (s : Store) (uid : Nat) (ci : ContactInfo)
    (cart : Cart) (hne : cart ≠ [])
    (hres : ∀ e ∈ cart, (getProductActive s.products e.1).isSome) :
    (checkout s uid ci cart).1 = .success s.nextOrderId ∧
    (⟨s.nextOrderId, some uid, ci, true⟩ : Order) ∈ (checkout s uid ci cart).2.1.orders := by
  cases cart with
  | nil => exact absurd rfl hne
  | cons hd rest =>
    obtain ⟨s2, hloop⟩ := checkoutLoop_done_of_resolvable s.nextOrderId (hd :: rest)
      { s with orders := s.orders ++ [⟨s.nextOrderId, some uid, ci, true⟩],
               nextOrderId := s.nextOrderId + 1 }
      hres
    obtain ⟨ho, -, -⟩ := checkoutLoop_done_spec s.nextOrderId (hd :: rest) _ _ hloop
    rw [checkout_cons, hloop]
    refine ⟨rfl, ?_⟩
    show (⟨s.nextOrderId, some uid, ci, true⟩ : Order) ∈ s2.orders
    rw [ho]
    exact List.mem_append_right _ (List.mem_singleton_self _)

/-- C2 witness: all-empty contact fields are accepted. -/
theorem checkout_no_contact_validation_witness :
    (checkout storeA 1 emptyCI [(2, 2)]).1 = .success storeA.nextOrderId ∧
    (⟨storeA.nextOrderId, some 1, emptyCI, true⟩ : Order)
      ∈ (checkout storeA 1 emptyCI [(2, 2)]).2.1.orders :=
  checkout_no_contact_validation storeA 1 emptyCI [(2, 2)] (by decide) (by decide)

/-- C4: a successful checkout clears the session cart and, for every cart
entry, sets the purchased product's stock to `max 0 (stock - qty)` — the
decrement is floored at zero and never goes negative. -/
theorem checkout_success_stock (s : Store) (uid : Nat) (ci : ContactInfo) (cart : Cart)
    (hnodup : (cart.map Prod.fst).Nodup) (oid : Nat)
    (hsucc : (checkout s uid ci cart).1 = .success oid) :
    (checkout s uid ci cart).2.2 = [] ∧
    ∀ e ∈ cart, ∀ p, getProductActive s.products e.1 = some p →
      getProductActive (checkout s uid ci cart).2.1.products e.1
        = some { p with stock := max 0 (p.stock - (e.2 : Int)) } := by
  cases cart with
  | nil =>
    have h2 : CheckoutResult.emptyCart = .success oid := hsucc
    cases h2
  | cons hd rest =>
    rw [checkout_cons] at hsucc ⊢
    cases hloop : checkoutLoop s.nextOrderId
        { s with orders := s.orders ++ [⟨s.nextOrderId, some uid, ci, true⟩],
                 nextOrderId := s.nextOrderId + 1 } (hd :: rest) with
    | notFound pid s2 =>
      rw [hloop] at hsucc
      exact absurd hsucc (by simp)
    | done s2 =>
      obtain ⟨-, hmain⟩ :=
        checkoutLoop_stock_spec s.nextOrderId (hd :: rest) _ _ hnodup hloop
      exact ⟨rfl, fun e he p hp => hmain e he p hp⟩

/-- C4 witness: the spec scenario — product A, stock 5, qty 2, stock
becomes 3 and the cart is cleared. -/
theorem checkout_success_stock_witness :
    (checkout storeA 1 ciEx [(2, 2)]).2.2 = [] ∧
    getProductActive (checkout storeA 1 ciEx [(2, 2)]).2.1.products 2
      = some { productA with stock := max 0 (productA.stock - (2 : Int)) } :=
  ⟨(checkout_success_stock storeA 1 ciEx [(2, 2)] (by decide) 0 (by decide)).1,
   (checkout_success_stock storeA 1 ciEx [(2, 2)] (by decide) 0 (by decide)).2
     (2, 2) (by decide) productA (by decide)⟩

/-- C5: every OrderItem created by a successful checkout snapshots the
referenced product's price as it was at checkout time, and a later
`Product.price` mutation leaves the persisted OrderItems untouched. -/
theorem orderitem_price_snapshot (s : Store) (uid : Nat) (ci : ContactInfo)
    (cart : Cart) (oid : Nat)
    (hsucc : (checkout s uid ci cart).1 = .success oid) :
    (∃ newItems, (checkout s uid ci cart).2.1.orderItems = s.orderItems ++ newItems ∧
       ∀ it ∈ newItems, ∃ p, getProductActive s.products it.productId = some p ∧
         it.price = p.price)
    ∧ ∀ pid v, (setProductPrice (checkout s uid ci cart).2.1 pid v).orderItems
        = (checkout s uid ci cart).2.1.orderItems := by
  refine ⟨?_, fun pid v => rfl⟩
  cases cart with
  | nil =>
    have h2 : CheckoutResult.emptyCart = .success oid := hsucc
    cases h2
  | cons hd rest =>
    rw [checkout_cons] at hsucc ⊢
    cases hloop : checkoutLoop s.nextOrderId
        { s with orders := s.orders ++ [⟨s.nextOrderId, some uid, ci, true⟩],
                 nextOrderId := s.nextOrderId + 1 } (hd :: rest) with
    | notFound pid s2 =>
      rw [hloop] at hsucc
      exact absurd hsucc (by simp)
    | done s2 =>
      obtain ⟨-, -, newI, hitems, hspec⟩ :=
        checkoutLoop_done_spec s.nextOrderId (hd :: rest) _ _ hloop
      exact ⟨newI, hitems, fun it hit => (hspec it hit).2⟩

/-- C5 witness: concrete checkout of product A, then a price mutation. -/
theorem orderitem_price_snapshot_witness :
    (∃ newItems, (checkout storeA 1 ciEx [(2, 2)]).2.1.orderItems
        = storeA.orderItems ++ newItems ∧
       ∀ it ∈ newItems, ∃ p, getProductActive storeA.products it.productId = some p ∧
         it.price = p.price)
    ∧ (setProductPrice (checkout storeA 1 ciEx [(2, 2)]).2.1 2 999).orderItems
        = (checkout storeA 1 ciEx [(2, 2)]).2.1.orderItems :=
  ⟨(orderitem_price_snapshot storeA 1 ciEx [(2, 2)] 0 (by decide)).1,
   (orderitem_price_snapshot storeA 1 ciEx [(2, 2)] 0 (by decide)).2 2 999⟩

theorem cartSet_cons_ne (e : Nat × Nat) (cart : Cart) (pid q : Nat)
    (h : e.1 ≠ pid) : cartSet (e :: cart) pid q = e :: cartSet cart pid q := by
  have hb : (e.1 == pid) = false := beq_eq_false_iff_ne.mpr h
  unfold cartSet
  simp only [List.any_cons, hb, Bool.false_or]
  by_cases ha : cart.any (fun x => x.1 == pid) = true
  · rw [if_pos ha, if_pos ha, List.map_cons, if_neg h]
  · rw [if_neg ha, if_neg ha, List.cons_append]

theorem cartGet_cartSet_self (cart : Cart) (pid q : Nat) :
    cartGet (cartSet cart pid q) pid = some q := by
  induction cart with
  | nil => simp [cartSet, cartGet]
  | cons e cart ih =>
    by_cases h : e.1 = pid
    · have hany : ((e :: cart).any (fun x => x.1 == pid)) = true := by
        simp [List.any_cons, h]
      unfold cartSet
      rw [if_pos hany, List.map_cons, if_pos h]
      simp [cartGet]
    · rw [cartSet_cons_ne e cart pid q h]
      unfold cartGet at ih ⊢
      rw [List.find?_cons_of_neg _ (by simp [h])]
      exact ih

theorem cartErase_not_mem (cart : Cart) (pid : Nat) :
    ∀ e ∈ cartErase cart pid, e.1 ≠ pid := by
  intro e he
  have hf := List.mem_filter.mp he
  simpa using hf.2

/-- C6: `cart_update` with qty ≤ 0 removes the entry (the product id no
longer occurs in the cart at all), and with qty ≥ 1 stores exactly qty,
regardless of the previous quantity. -/
theorem cart_update_spec (cart : Cart) (pid : Nat) (qty : Int) :
    (qty ≤ 0 → ∀ e ∈ cart_update cart pid qty, e.1 ≠ pid)
    ∧ (1 ≤ qty → cartGet (cart_update cart pid qty) pid = some qty.toNat) := by
  constructor
  · intro hq e he
    rw [cart_update, if_pos hq] at he
    exact cartErase_not_mem cart pid e he
  · intro hq
    rw [cart_update, if_neg (by omega)]
    exact cartGet_cartSet_self cart pid qty.toNat

/-- C6 witness: removal at qty 0, exact overwrite at qty 3 (previous qty 2). -/
theorem cart_update_spec_witness :
    ((0 : Int) ≤ 0 ∧ ∀ e ∈ cart_update [(5, 2)] 5 0, e.1 ≠ 5)
    ∧ ((1 : Int) ≤ 3 ∧ cartGet (cart_update [(5, 2)] 5 3) 5 = some ((3 : Int).toNat)) :=
  ⟨⟨by decide, (cart_update_spec [(5, 2)] 5 0).1 (by decide)⟩,
   ⟨by decide, (cart_update_spec [(5, 2)] 5 3).2 (by decide)⟩⟩

/-- C7: when every cart entry resolves to an existing active product, the
cart view succeeds and its total is the sum over entries of quantity times
the product's current price. -/
theorem cart_view_total (ps : List Product) (cart : Cart)
    (h : ∀ e ∈ cart, (getProductActive ps e.1).isSome) :
    ∃ items, cart_view ps cart
      = .ok (items,
          (cart.map (fun e =>
            ((getProductActive ps e.1).map Product.price).getD 0 * (e.2 : Int))).sum) := by
  induction cart with
  | nil => exact ⟨[], rfl⟩
  | cons e rest ih =>
    obtain ⟨e1, e2⟩ := e
    obtain ⟨p, hp⟩ := Option.isSome_iff_exists.mp (h (e1, e2) (List.mem_cons_self _ _))
    obtain ⟨items, hitems⟩ := ih (fun x hx => h x (List.mem_cons_of_mem _ hx))
    refine ⟨(p, e2, p.price * (e2 : Int)) :: items, ?_⟩
    show (match getProductActive ps e1 with
      | none => Except.error e1
      | some p =>
        match cart_view ps rest with
        | .error e => .error e
        | .ok (items, total) =>
            .ok ((p, e2, p.price * (e2 : Int)) :: items, p.price * (e2 : Int) + total)) = _
    rw [hp, hitems]
    simp [List.map_cons, List.sum_cons, hp]

/-- C7 witness: one entry, qty 3 of product A at price 10.00. -/
theorem cart_view_total_witness :
    ∃ items, cart_view [productA] [(2, 3)]
      = .ok (items,
          ([(2, 3)] : Cart).map (fun e =>
            ((getProductActive [productA] e.1).map Product.price).getD 0 * (e.2 : Int))
          |>.sum) :=
  cart_view_total [productA] [(2, 3)] (by decide)

/-- C8: two registrations with the same email up to letter-casing (and
distinct, available usernames, matching password/confirm pairs): the first
succeeds and creates the credential record; the second fails on the
duplicate-email check and leaves the user table unchanged. -/
theorem register_duplicate_email (users : List UserCred) (u1 e1 p1 u2 e2 p2 : String)
    (hu1 : ∀ u ∈ users, u.username ≠ pyStrip u1)
    (he1 : ∀ u ∈ users, u.email ≠ pyLower (pyStrip e1))
    (hu2 : pyStrip u2 ≠ pyStrip u1)
    (hu2' : ∀ u ∈ users, u.username ≠ pyStrip u2)
    (hemail : pyLower (pyStrip e2) = pyLower (pyStrip e1)) :
    (register_view users u1 e1 p1 p1).1 = .ok ∧
    (register_view (register_view users u1 e1 p1 p1).2 u2 e2 p2 p2).1 = .emailTaken ∧
    (register_view (register_view users u1 e1 p1 p1).2 u2 e2 p2 p2).2
      = (register_view users u1 e1 p1 p1).2 := by
  have hany1u : users.any (fun u => u.username == pyStrip u1) = false := by
    rw [List.any_eq_false]
    intro u hu
    simp [hu1 u hu]
  have hany1e : users.any (fun u => u.email == pyLower (pyStrip e1)) = false := by
    rw [List.any_eq_false]
    intro u hu
    simp [he1 u hu]
  have h1 : register_view users u1 e1 p1 p1
      = (.ok, users ++ [⟨pyStrip u1, pyLower (pyStrip e1), p1⟩]) := by
    unfold register_view
    simp [hany1u, hany1e]
  have hany2u : (users ++ [(⟨pyStrip u1, pyLower (pyStrip e1), p1⟩ : UserCred)]).any
      (fun u => u.username == pyStrip u2) = false := by
    rw [List.any_eq_false]
    intro u hu
    rcases List.mem_append.mp hu with h | h
    · simp [hu2' u h]
    · rcases List.mem_singleton.mp h with rfl
      simp [Ne.symm hu2]
  have hany2e : (users ++ [(⟨pyStrip u1, pyLower (pyStrip e1), p1⟩ : UserCred)]).any
      (fun u => u.email == pyLower (pyStrip e2)) = true := by
    rw [List.any_eq_true]
    exact ⟨⟨pyStrip u1, pyLower (pyStrip e1), p1⟩,
      List.mem_append_right _ (List.mem_singleton_self _), by simp [hemail]⟩
  have h2 : register_view (users ++ [(⟨pyStrip u1, pyLower (pyStrip e1), p1⟩ : UserCred)]) u2 e2 p2 p2
      = (.emailTaken, users ++ [⟨pyStrip u1, pyLower (pyStrip e1), p1⟩]) := by
    unfold register_view
    simp [hany2u, hany2e]
  refine ⟨?_, ?_, ?_⟩ <;> simp [h1, h2]

/-- C8 witness: "A@X.com" then "a@x.COM" — same address up to casing. -/
theorem register_duplicate_email_witness :
    (register_view [] "alice" "A@X.com" "pw" "pw").1 = .ok ∧
    (register_view (register_view [] "alice" "A@X.com" "pw" "pw").2
        "bob" "a@x.COM" "pw2" "pw2").1 = .emailTaken ∧
    (register_view (register_view [] "alice" "A@X.com" "pw" "pw").2
        "bob" "a@x.COM" "pw2" "pw2").2
      = (register_view [] "alice" "A@X.com" "pw" "pw").2 :=
  register_duplicate_email [] "alice" "A@X.com" "pw" "bob" "a@x.COM" "pw2"
    (fun u hu => absurd hu (List.not_mem_nil u))
    (fun u hu => absurd hu (List.not_mem_nil u))
    (by decide)
    (fun u hu => absurd hu (List.not_mem_nil u))
    (by decide)

/-- C9: every failing login run produces the exact same generic outcome
`.failure "Invalid credentials"` (so two failure runs — unknown username,
unknown email, or wrong password — are indistinguishable to the visitor),
and when the identifier does not authenticate as a username, the view falls
back to resolving it as an email and re-authenticating that user's
username. -/
theorem login_generic_error (users : List UserCred) (ident pw : String) :
    ((∃ u, login_view users ident pw = .success u)
      ∨ login_view users ident pw = .failure "Invalid credentials")
    ∧ (authenticate users ident pw = none →
       ∀ u, users.find? (fun v => v.email == ident) = some u →
         login_view users ident pw = outcomeOf (authenticate users u.username pw)) := by
  constructor
  · unfold login_view
    cases authenticate users ident pw with
    | some u => exact .inl ⟨u, rfl⟩
    | none =>
      cases users.find? (fun v => v.email == ident) with
      | none => exact .inr rfl
      | some u =>
        show (∃ w, outcomeOf (authenticate users u.username pw) = .success w)
          ∨ outcomeOf (authenticate users u.username pw) = .failure "Invalid credentials"
        cases authenticate users u.username pw with
        | some v => exact .inl ⟨v, rfl⟩
        | none => exact .inr rfl
  · intro hauth u hf
    unfold login_view
    rw [hauth, hf]

/-- C9 witness: wrong password with an email identifier — the run fails
generically and goes through the email-resolution fallback. -/
theorem login_generic_error_witness :
    ((∃ u, login_view [alice] "a@x.com" "bad" = .success u)
      ∨ login_view [alice] "a@x.com" "bad" = .failure "Invalid credentials")
    ∧ (authenticate [alice] "a@x.com" "bad" = none ∧
       List.find? (fun v => v.email == "a@x.com") [alice] = some alice ∧
       login_view [alice] "a@x.com" "bad"
         = outcomeOf (authenticate [alice] alice.username "bad")) :=
  ⟨(login_generic_error [alice] "a@x.com" "bad").1,
   by decide,
   by decide,
   (login_generic_error [alice] "a@x.com" "bad").2 (by decide) alice (by decide)⟩

/-- C10: the order-success lookup returns an order only when it exists and
belongs to the requesting authenticated user, and returns NotFound whenever
no order with that id belongs to that user. -/
theorem order_success_owner (s : Store) (uid oid : Nat) :
    (∀ o, order_success s uid oid = some o →
       o ∈ s.orders ∧ o.id = oid ∧ o.userId = some uid)
    ∧ ((∀ o ∈ s.orders, ¬(o.id = oid ∧ o.userId = some uid)) →
       order_success s uid oid = none) := by
  constructor
  · intro o h
    have hm := List.mem_of_find?_eq_some h
    have hp := List.find?_some h
    simp only [Bool.and_eq_true, beq_iff_eq] at hp
    exact ⟨hm, hp.1, hp.2⟩
  · intro hall
    unfold order_success
    rw [List.find?_eq_none]
    intro o ho
    simp only [Bool.and_eq_true, beq_iff_eq]
    exact fun hh => hall o ho hh

/-- C10 witness: order 7 belongs to user 2; user 1's lookup gets NotFound,
user 2's lookup returns it and the ownership facts hold. -/
theorem order_success_owner_witness :
    order_success store7 1 7 = none ∧
    (order7 ∈ store7.orders ∧ order7.id = 7 ∧ order7.userId = some 2) :=
  ⟨(order_success_owner store7 1 7).2 (by decide),
   (order_success_owner store7 2 7).1 order7 (by decide)⟩

end Shop
